import Mathlib

set_option linter.unusedVariables false

/-!
Verification of the `typed_index` library: a strongly typed index
`IndexTo<Data, In, Idx>` wrapping a raw index with phantom marker types,
together with its container bindings (Vec, slice, str), blanket capability
traits (`HaveTypedIndex`, `TypedIndex`, `TypedIndexMut`, `IndexLike`) and
the serde bridge.

Modelling conventions:
- `Vec<T>` and `[T]` are modelled as `List T`; `usize` as `Nat`; `u8` as `Nat`.
- A Rust panic (out-of-bounds native indexing, `Option::unwrap` on `None`)
  is modelled as the access returning `none`; a successful access returning
  a reference to an element is modelled as `some` of the element's value.
- A mutable reference obtained from `index_mut` is modelled by its two
  observables: the value read through it, and the collection that results
  from writing a value through it.
- Rust trait dictionaries (`Index`, `IndexMut`) are passed explicitly as
  structures, mirroring the blanket impls which are generic over them.
- `std::any::type_name::<In>()` is modelled as an explicit `String`
  parameter, since type names are not computable inside the model.
-/

/-- The typed-index struct (src/lib.rs lines 130-138): one raw index field
of type `Idx`, plus two phantom marker types `Data` (the element type) and
`In` (the owner/container type) which contribute no runtime field. -/
structure IndexTo (Data : Type) (In : Type) (Idx : Type) where
  index : Idx

/-- `IndexTo::from_index` (src/lib.rs line 146): wraps any raw index. -/
def IndexTo.from_index {Data In Idx : Type} (index : Idx) : IndexTo Data In Idx :=
  ⟨index⟩

/-- `IndexTo::set_index` (src/lib.rs line 150): replaces the raw index. -/
def IndexTo.set_index {Data In Idx : Type} (a : IndexTo Data In Idx) (index : Idx) :
    IndexTo Data In Idx :=
  ⟨index⟩

/-- `IndexTo::with_index` (src/lib.rs line 152): by-value replacement. -/
def IndexTo.with_index {Data In Idx : Type} (a : IndexTo Data In Idx) (index : Idx) :
    IndexTo Data In Idx :=
  a.set_index index

/-- `PartialEq for IndexTo` (src/lib.rs line 161): `self.index == other.index`,
parameterised by the raw type's equality operation. -/
def IndexTo.eqWith {Data In Idx : Type} (eqIdx : Idx → Idx → Bool)
    (a b : IndexTo Data In Idx) : Bool :=
  eqIdx a.index b.index

/-- `Ord for IndexTo` (src/lib.rs line 162): `self.index.cmp(&other.index)`. -/
def IndexTo.cmpWith {Data In Idx : Type} (cmpIdx : Idx → Idx → Ordering)
    (a b : IndexTo Data In Idx) : Ordering :=
  cmpIdx a.index b.index

/-- `PartialOrd for IndexTo` (src/lib.rs line 163):
`self.index.partial_cmp(&other.index)`. -/
def IndexTo.partialCmpWith {Data In Idx : Type} (pcmpIdx : Idx → Idx → Option Ordering)
    (a b : IndexTo Data In Idx) : Option Ordering :=
  pcmpIdx a.index b.index

/-- `Hash for IndexTo` (src/lib.rs line 155): `self.index.hash(state)`;
the hasher state is modelled as a value of type `S` threaded through. -/
def IndexTo.hashWith {Data In Idx S : Type} (hashIdx : Idx → S → S)
    (a : IndexTo Data In Idx) (state : S) : S :=
  hashIdx a.index state

/-- `Debug for IndexTo` (src/lib.rs line 158): renders
`IndexTo<{type_name::<In>()}>({self.index:?})`. The owner type name and the
raw value's debug formatter are passed explicitly. Note the source renders
the name of the owner marker `In` only, not of the element marker `Data`. -/
def IndexTo.fmtDebug {Data In Idx : Type} (inTypeName : String)
    (debugIdx : Idx → String) (a : IndexTo Data In Idx) : String :=
  "IndexTo<" ++ inTypeName ++ ">(" ++ debugIdx a.index ++ ")"

/-- `Display for IndexTo` (src/lib.rs line 159): renders
`IndexTo<{type_name::<In>()}>({self.index})`. -/
def IndexTo.fmtDisplay {Data In Idx : Type} (inTypeName : String)
    (displayIdx : Idx → String) (a : IndexTo Data In Idx) : String :=
  "IndexTo<" ++ inTypeName ++ ">(" ++ displayIdx a.index ++ ")"

/-- Explicit dictionary for Rust's `Index<Idx>` trait on a container type
`Coll` with output `Out`; a panicking access is modelled as `none`. -/
structure IndexDict (Coll Idx Out : Type) where
  indexOp : Coll → Idx → Option Out

/-- Explicit dictionary for Rust's `IndexMut<Idx>`: the mutable reference
returned by `index_mut` is modelled by its read observable (`readMut`) and
its write observable (`writeMut`, the collection after writing a value
through the reference); a panic is `none`. -/
structure IndexMutDict (Coll Idx Out : Type) extends IndexDict Coll Idx Out where
  readMut : Coll → Idx → Option Out
  writeMut : Coll → Idx → Out → Option Coll

/-- The `HaveTypedIndex` blanket impl (src/lib.rs lines 205-214): for any
`T : Index<Idx>`, `index_to(&self, index)` returns
`IndexTo::<T::Output, T, Idx>::from_index(index)`. The dictionary argument
`d` is the blanket impl's `T : Index<Idx>` precondition; the container `c`
is the `&self` receiver, which the body never inspects. -/
def index_to {Coll Idx Out : Type} (d : IndexDict Coll Idx Out) (c : Coll)
    (i : Idx) : IndexTo Out Coll Idx :=
  IndexTo.from_index i

/-- `TypedIndex::typed_index` (src/lib.rs lines 216-227): for any
`T : HaveTypedIndex<Idx> + Index<T::IndexTo>`, forwards to `self.index(index)`
at the typed index type. -/
def typed_index {Coll Out Idx Out2 : Type}
    (d : IndexDict Coll (IndexTo Out Coll Idx) Out2) (c : Coll)
    (i : IndexTo Out Coll Idx) : Option Out2 :=
  d.indexOp c i

/-- `TypedIndexMut::typed_index_mut` (src/lib.rs lines 229-240), read
observable of the returned mutable reference: forwards to
`self.index_mut(index)`. -/
def typed_index_mut_read {Coll Out Idx Out2 : Type}
    (d : IndexMutDict Coll (IndexTo Out Coll Idx) Out2) (c : Coll)
    (i : IndexTo Out Coll Idx) : Option Out2 :=
  d.readMut c i

/-- `TypedIndexMut::typed_index_mut` (src/lib.rs lines 229-240), write
observable: the collection after writing `v` through the returned mutable
reference. -/
def typed_index_mut_write {Coll Out Idx Out2 : Type}
    (d : IndexMutDict Coll (IndexTo Out Coll Idx) Out2) (c : Coll)
    (i : IndexTo Out Coll Idx) (v : Out2) : Option Coll :=
  d.writeMut c i v

/-- `IndexLike::get` (src/index_extension.rs line 8):
`inside.index(self)`, generic over `T : Index<Self>`. -/
def IndexLike.get {I Coll Out : Type} (d : IndexDict Coll I Out) (self : I)
    (inside : Coll) : Option Out :=
  d.indexOp inside self

/-- `IndexLike::get_mut` (src/index_extension.rs line 9), read observable:
`inside.index_mut(self)`, generic over `T : IndexMut<Self>`. -/
def IndexLike.get_mut_read {I Coll Out : Type} (d : IndexMutDict Coll I Out)
    (self : I) (inside : Coll) : Option Out :=
  d.readMut inside self

/-- `IndexLike::get_mut` (src/index_extension.rs line 9), write observable. -/
def IndexLike.get_mut_write {I Coll Out : Type} (d : IndexMutDict Coll I Out)
    (self : I) (inside : Coll) (v : Out) : Option Coll :=
  d.writeMut inside self v

/-- Native `Vec<T>`/`[T]` indexing by `usize` from the standard library:
panics (`none`) when the index is out of bounds, otherwise yields the
element. -/
def vecNativeIndex {T : Type} (c : List T) (i : Nat) : Option T :=
  c.get? i

/-- Native `Vec<T>`/`[T]` mutable indexing by `usize`, write observable:
writing `v` through `&mut c[i]` replaces element `i`; panics (`none`) when
out of bounds. -/
def vecNativeWriteMut {T : Type} (c : List T) (i : Nat) (v : T) : Option (List T) :=
  if i < c.length then some (c.set i v) else none

/-- `Index<IndexTo<D, Vec<D>>> for Vec<D>` (src/lib.rs lines 165-170):
`self.index(index.index)`. -/
def vecIndexTyped {T : Type} (c : List T) (idx : IndexTo T (List T) Nat) : Option T :=
  vecNativeIndex c idx.index

/-- `IndexMut<IndexTo<T, Vec<T>>> for Vec<T>` (src/lib.rs lines 172-176),
write observable: `self.index_mut(index.index)`. -/
def vecWriteTyped {T : Type} (c : List T) (idx : IndexTo T (List T) Nat)
    (v : T) : Option (List T) :=
  vecNativeWriteMut c idx.index v

/-- `slice::get` from the standard library: `Some` iff in bounds. -/
def sliceGet {T : Type} (s : List T) (i : Nat) : Option T :=
  s.get? i

/-- Writing through the `&mut` returned by `slice::get_mut(i).unwrap()`:
if `get_mut` yields a reference (in bounds), the write replaces element
`i`; otherwise `unwrap` panics (`none`). -/
def sliceGetMutWrite {T : Type} (s : List T) (i : Nat) (v : T) : Option (List T) :=
  match sliceGet s i with
  | some _ => some (s.set i v)
  | none => none

/-- Native `[T]` indexing by `usize`: panics out of bounds. -/
def sliceNativeIndex {T : Type} (s : List T) (i : Nat) : Option T :=
  s.get? i

/-- `Index<IndexTo<T, [T]>> for [T]` (src/lib.rs lines 178-183):
`self.get(index.index).unwrap()`; an `unwrap` of `None` is the panic
(`none`), so the modelled result is `sliceGet` itself. -/
def sliceIndexTyped {T : Type} (s : List T) (idx : IndexTo T (List T) Nat) : Option T :=
  sliceGet s idx.index

/-- `IndexMut<IndexTo<T, [T]>> for [T]` (src/lib.rs lines 185-189), write
observable: `self.get_mut(index.index).unwrap()`. -/
def sliceWriteTyped {T : Type} (s : List T) (idx : IndexTo T (List T) Nat)
    (v : T) : Option (List T) :=
  sliceGetMutWrite s idx.index v

/-- UTF-8 encoding of a Unicode scalar value, as a list of byte values;
models how Rust's `str::as_bytes` exposes each `char`. -/
def utf8EncodeCharNat (c : Nat) : List Nat :=
  if c < 0x80 then [c]
  else if c < 0x800 then
    [0xC0 ||| (c >>> 6), 0x80 ||| (c &&& 0x3F)]
  else if c < 0x10000 then
    [0xE0 ||| (c >>> 12), 0x80 ||| ((c >>> 6) &&& 0x3F), 0x80 ||| (c &&& 0x3F)]
  else
    [0xF0 ||| (c >>> 18), 0x80 ||| ((c >>> 12) &&& 0x3F),
     0x80 ||| ((c >>> 6) &&& 0x3F), 0x80 ||| (c &&& 0x3F)]

/-- `str::as_bytes`: the UTF-8 byte sequence of the string. -/
def strAsBytes (s : String) : List Nat :=
  (s.data.map (fun c => utf8EncodeCharNat c.toNat)).flatten

/-- Native byte indexing of `str` through `self.as_bytes().index(i)`:
panics (`none`) when `i` is not a valid byte position. -/
def strNativeByteIndex (s : String) (i : Nat) : Option Nat :=
  (strAsBytes s).get? i

/-- `Index<IndexTo<u8, str>> for str` (src/lib.rs lines 191-196):
`self.as_bytes().index(index.index)`. -/
def strIndexTyped (s : String) (idx : IndexTo Nat String Nat) : Option Nat :=
  strNativeByteIndex s idx.index

/-- The `Index<usize>` dictionary of `Vec<T>` (standard library). -/
def vecIndexDictNat (T : Type) : IndexDict (List T) Nat T :=
  ⟨vecNativeIndex⟩

/-- The `Index<IndexTo<T, Vec<T>>>` dictionary of `Vec<T>`
(src/lib.rs lines 165-170). -/
def vecIndexDictTyped (T : Type) : IndexDict (List T) (IndexTo T (List T) Nat) T :=
  ⟨vecIndexTyped⟩

/-- The `IndexMut<IndexTo<T, Vec<T>>>` dictionary of `Vec<T>`
(src/lib.rs lines 165-176). -/
def vecIndexMutDictTyped (T : Type) : IndexMutDict (List T) (IndexTo T (List T) Nat) T :=
  ⟨⟨vecIndexTyped⟩, vecIndexTyped, vecWriteTyped⟩

/-- The `IndexMut<usize>` dictionary of `Vec<T>` (standard library). -/
def vecIndexMutDictNat (T : Type) : IndexMutDict (List T) Nat T :=
  ⟨⟨vecNativeIndex⟩, vecNativeIndex, vecNativeWriteMut⟩

/-- `serde`: `Serialize for TypedIndex` (src/serde_support.rs lines 8-20):
`self.index.serialize(serializer)`; the serializer is modelled as a
function from the raw index to a wire value (or an error). -/
def serializeTyped {Data In Idx E W : Type} (ser : Idx → Except E W)
    (a : IndexTo Data In Idx) : Except E W :=
  ser a.index

/-- `serde`: `Deserialize for TypedIndex` (src/serde_support.rs lines
23-40): `let index = Idx::deserialize(deserializer)?;` then wrap the raw
value with fresh phantom markers. -/
def deserializeTyped {Data In Idx E W : Type} (de : W → Except E Idx)
    (w : W) : Except E (IndexTo Data In Idx) :=
  match de w with
  | Except.ok i => Except.ok (IndexTo.from_index i)
  | Except.error e => Except.error e

-- ## Helper lemmas

theorem list_get?_eq_none_of_le {T : Type} :
    ∀ (l : List T) (i : Nat), l.length ≤ i → l.get? i = none := by
  intro l
  induction l with
  | nil => intro i _; cases i <;> rfl
  | cons x xs ih =>
    intro i h
    cases i with
    | zero => exact absurd h (by simp)
    | succ n => exact ih n (Nat.le_of_succ_le_succ h)

theorem list_get?_isSome_of_lt {T : Type} :
    ∀ (l : List T) (i : Nat), i < l.length → ∃ x, l.get? i = some x := by
  intro l
  induction l with
  | nil => intro i h; exact absurd h (by simp)
  | cons x xs ih =>
    intro i h
    cases i with
    | zero => exact ⟨x, rfl⟩
    | succ n => exact ih n (Nat.lt_of_succ_lt_succ h)

theorem list_get?_set_self_of_lt {T : Type} :
    ∀ (l : List T) (i : Nat) (v : T), i < l.length → (l.set i v).get? i = some v := by
  intro l
  induction l with
  | nil => intro i v h; exact absurd h (by simp)
  | cons x xs ih =>
    intro i v h
    cases i with
    | zero => rfl
    | succ n => exact ih n v (Nat.lt_of_succ_lt_succ h)

/-- Checks whether `n` is a prefix of `h` (character lists). -/
def listIsPre (n h : List Char) : Bool :=
  match n, h with
  | [], _ => true
  | _ :: _, [] => false
  | a :: n2, b :: h2 => a == b && listIsPre n2 h2

/-- Checks whether `n` occurs as a contiguous sublist of `h`. -/
def listContainsSub (h n : List Char) : Bool :=
  match h with
  | [] => listIsPre n []
  | c :: h2 => listIsPre n (c :: h2) || listContainsSub h2 n

/-- Checks whether `needle` occurs as a substring of `hay`. -/
def strContainsSub (hay needle : String) : Bool :=
  listContainsSub hay.data needle.data

theorem listIsPre_self_append : ∀ (n m : List Char), listIsPre n (n ++ m) = true := by
  intro n m
  induction n with
  | nil => rfl
  | cons a n2 ih => simp [listIsPre, ih]

theorem listContainsSub_of_isPre :
    ∀ (h n : List Char), listIsPre n h = true → listContainsSub h n = true := by
  intro h n hp
  cases h with
  | nil => exact hp
  | cons c h2 => simp [listContainsSub, hp]

theorem listContainsSub_cons (a : Char) (h n : List Char)
    (hc : listContainsSub h n = true) : listContainsSub (a :: h) n = true := by
  simp [listContainsSub, hc]

theorem listContainsSub_append_left :
    ∀ (p h n : List Char), listContainsSub h n = true →
      listContainsSub (p ++ h) n = true := by
  intro p
  induction p with
  | nil => intro h n hc; exact hc
  | cons a p2 ih => intro h n hc; exact listContainsSub_cons a _ n (ih h n hc)

theorem listContainsSub_here (n s : List Char) : listContainsSub (n ++ s) n = true :=
  listContainsSub_of_isPre _ _ (listIsPre_self_append n s)

theorem string_data_append : ∀ (s t : String), (s ++ t).data = s.data ++ t.data := by
  intro s t
  cases s
  cases t
  rfl

-- ## Claim theorems

/-- C1: For the Vec binding, minting a typed index with `index_to(v)` and
then reading the container through it — via the `Index` impl
(`vecIndexTyped`) or via `typed_index` — returns the same element as
reading directly at raw position `v`, and for in-bounds `v` that element
exists. -/
theorem mint_then_read_eq_native (T : Type) (c : List T) (v : Nat)
    (h : v < c.length) :
    typed_index (vecIndexDictTyped T) c (index_to (vecIndexDictNat T) c v) =
      vecNativeIndex c v ∧
    vecIndexTyped c (index_to (vecIndexDictNat T) c v) = vecNativeIndex c v ∧
    ∃ x, vecNativeIndex c v = some x := by
  refine ⟨rfl, rfl, ?_⟩
  exact list_get?_isSome_of_lt c v h

/-- Witness for C1 at the container `[10, 20, 30]` and raw index 1. -/
theorem mint_then_read_eq_native_witness :
    1 < ([10, 20, 30] : List Nat).length ∧
    (typed_index (vecIndexDictTyped Nat) [10, 20, 30]
        (index_to (vecIndexDictNat Nat) [10, 20, 30] 1) =
      vecNativeIndex [10, 20, 30] 1 ∧
    vecIndexTyped [10, 20, 30] (index_to (vecIndexDictNat Nat) [10, 20, 30] 1) =
      vecNativeIndex [10, 20, 30] 1 ∧
    ∃ x, vecNativeIndex ([10, 20, 30] : List Nat) 1 = some x) :=
  ⟨by decide, mint_then_read_eq_native Nat [10, 20, 30] 1 (by decide)⟩

/-- C3: `from_index(v).index() == v` for every raw value and every choice
of element and owner marker types: `from_index` wraps any raw value and
`index` returns the stored raw value unchanged. -/
theorem from_index_index_roundtrip (Data In Idx : Type) (v : Idx) :
    (IndexTo.from_index v : IndexTo Data In Idx).index = v :=
  rfl

/-- C6: Equality, ordering (`cmp`/`partial_cmp`) and hashing of typed
indices sharing the same marker types are pure forwardings of the raw
value's corresponding operations, and propositional equality of typed
indices coincides with equality of their raw values. -/
theorem eq_ord_hash_forward_to_raw (D I Idx S : Type)
    (eqIdx : Idx → Idx → Bool) (cmpIdx : Idx → Idx → Ordering)
    (pcmpIdx : Idx → Idx → Option Ordering) (hashIdx : Idx → S → S)
    (a b : IndexTo D I Idx) (st : S) :
    IndexTo.eqWith eqIdx a b = eqIdx a.index b.index ∧
    IndexTo.cmpWith cmpIdx a b = cmpIdx a.index b.index ∧
    IndexTo.partialCmpWith pcmpIdx a b = pcmpIdx a.index b.index ∧
    IndexTo.hashWith hashIdx a st = hashIdx a.index st ∧
    (a = b ↔ a.index = b.index) := by
  refine ⟨rfl, rfl, rfl, rfl, ?_, ?_⟩
  · intro h; rw [h]
  · intro h; cases a; cases b; exact congrArg IndexTo.mk h

/-- C9: Indexing a `str` with a typed index operates at byte granularity:
for every valid byte position `v`, the access returns exactly the byte of
`s.as_bytes()` at position `v`. -/
theorem str_typed_index_is_byte_at (s : String) (v : Nat)
    (h : v < (strAsBytes s).length) :
    strIndexTyped s (IndexTo.from_index v) = (strAsBytes s).get? v ∧
    ∃ b, (strAsBytes s).get? v = some b ∧
      strIndexTyped s (IndexTo.from_index v) = some b := by
  refine ⟨rfl, ?_⟩
  obtain ⟨b, hb⟩ := list_get?_isSome_of_lt _ v h
  exact ⟨b, hb, hb⟩

/-- Witness for C9 at the string "ab" and byte position 1. -/
theorem str_typed_index_is_byte_at_witness :
    1 < (strAsBytes "ab").length ∧
    (strIndexTyped "ab" (IndexTo.from_index 1) = (strAsBytes "ab").get? 1 ∧
     ∃ b, (strAsBytes "ab").get? 1 = some b ∧
       strIndexTyped "ab" (IndexTo.from_index 1) = some b) :=
  ⟨by decide, str_typed_index_is_byte_at "ab" 1 (by decide)⟩

/-- C10: `index_to` depends only on the raw value, never on the container:
`c.index_to(v)` equals `from_index(v)` for every container and every raw
value (in particular out-of-range ones), so two containers of the same
type always mint equal typed indices from equal raw values. -/
theorem index_to_ignores_container_contents (Coll Idx Out : Type)
    (d : IndexDict Coll Idx Out) (c1 c2 : Coll) (v : Idx) :
    index_to d c1 v = index_to d c2 v ∧
    index_to d c1 v = IndexTo.from_index v ∧
    ∀ (T : Type) (c : List T) (n : Nat),
      index_to (vecIndexDictNat T) c n = IndexTo.from_index n :=
  ⟨rfl, rfl, fun _ _ _ => rfl⟩

/-- C2: The typed bindings for Vec, slice and str are pure forwardings of
the raw value into native indexing (no extra logic), and a typed index
whose raw value `N` is out of range makes read and mutate accesses fail
exactly as native indexing fails — the panic (`none`), never a returned
value. -/
theorem out_of_range_access_panics (T : Type) (c : List T) (s : String)
    (N : Nat) (v : T) (idx : IndexTo T (List T) Nat)
    (bidx : IndexTo Nat String Nat)
    (hN : c.length ≤ N) (hb : (strAsBytes s).length ≤ bidx.index) :
    vecIndexTyped c idx = vecNativeIndex c idx.index ∧
    sliceIndexTyped c idx = sliceNativeIndex c idx.index ∧
    strIndexTyped s bidx = strNativeByteIndex s bidx.index ∧
    vecIndexTyped c (IndexTo.from_index N) = none ∧
    vecNativeIndex c N = none ∧
    vecWriteTyped c (IndexTo.from_index N) v = none ∧
    vecNativeWriteMut c N v = none ∧
    sliceIndexTyped c (IndexTo.from_index N) = none ∧
    sliceNativeIndex c N = none ∧
    sliceWriteTyped c (IndexTo.from_index N) v = none ∧
    strIndexTyped s bidx = none := by
  have hget : c.get? N = none := list_get?_eq_none_of_le c N hN
  have hbget : (strAsBytes s).get? bidx.index = none :=
    list_get?_eq_none_of_le _ _ hb
  have hnlt : ¬ N < c.length := Nat.not_lt.mpr hN
  refine ⟨rfl, rfl, rfl, hget, hget, ?_, ?_, hget, hget, ?_, hbget⟩
  · simp [vecWriteTyped, vecNativeWriteMut, IndexTo.from_index, hnlt]
  · simp [vecNativeWriteMut, hnlt]
  · show (match sliceGet c N with
          | some _ => some (c.set N v)
          | none => none) = none
    rw [show sliceGet c N = none from hget]

/-- Witness for C2 at the container `[7, 8]`, string "ab", raw index 5 and
byte index 99. -/
theorem out_of_range_access_panics_witness :
    ([7, 8] : List Nat).length ≤ 5 ∧
    (strAsBytes "ab").length ≤ (IndexTo.from_index 99 : IndexTo Nat String Nat).index ∧
    (vecIndexTyped [7, 8] (IndexTo.from_index 0 : IndexTo Nat (List Nat) Nat) =
       vecNativeIndex [7, 8] (IndexTo.from_index 0 : IndexTo Nat (List Nat) Nat).index ∧
     sliceIndexTyped [7, 8] (IndexTo.from_index 0 : IndexTo Nat (List Nat) Nat) =
       sliceNativeIndex [7, 8] (IndexTo.from_index 0 : IndexTo Nat (List Nat) Nat).index ∧
     strIndexTyped "ab" (IndexTo.from_index 99) =
       strNativeByteIndex "ab" (IndexTo.from_index 99 : IndexTo Nat String Nat).index ∧
     vecIndexTyped [7, 8] (IndexTo.from_index 5) = none ∧
     vecNativeIndex ([7, 8] : List Nat) 5 = none ∧
     vecWriteTyped [7, 8] (IndexTo.from_index 5) 9 = none ∧
     vecNativeWriteMut [7, 8] 5 9 = none ∧
     sliceIndexTyped [7, 8] (IndexTo.from_index 5) = none ∧
     sliceNativeIndex ([7, 8] : List Nat) 5 = none ∧
     sliceWriteTyped [7, 8] (IndexTo.from_index 5) 9 = none ∧
     strIndexTyped "ab" (IndexTo.from_index 99) = none) :=
  ⟨by decide, by decide,
   out_of_range_access_panics Nat [7, 8] "ab" 5 9 (IndexTo.from_index 0)
     (IndexTo.from_index 99) (by decide) (by decide)⟩

/-- C4: `idx.get(&c)` is exactly the container's own read access at `idx`
(`IndexLike::get` forwards to `Index::index` for every dictionary), and
`idx.get_mut(&mut c)` is exactly the container's mutable access; the same
holds for a bare raw `usize` index used in the `get` calling style; for
valid indices the accessed element exists. -/
theorem reverse_access_agrees_with_native (T : Type) (c : List T)
    (idx : IndexTo T (List T) Nat) (i : Nat) (v : T)
    (hidx : idx.index < c.length) (hi : i < c.length) :
    (∀ (I2 Coll Out : Type) (d : IndexDict Coll I2 Out) (self : I2) (inside : Coll),
       IndexLike.get d self inside = d.indexOp inside self) ∧
    IndexLike.get (vecIndexDictTyped T) idx c = vecIndexTyped c idx ∧
    (∃ x, vecIndexTyped c idx = some x) ∧
    IndexLike.get_mut_read (vecIndexMutDictTyped T) idx c = vecIndexTyped c idx ∧
    IndexLike.get_mut_write (vecIndexMutDictTyped T) idx c v = vecWriteTyped c idx v ∧
    IndexLike.get (vecIndexDictNat T) i c = vecNativeIndex c i ∧
    (∃ x, vecNativeIndex c i = some x) ∧
    IndexLike.get_mut_write (vecIndexMutDictNat T) i c v = vecNativeWriteMut c i v := by
  refine ⟨fun _ _ _ _ _ _ => rfl, rfl, ?_, rfl, rfl, rfl, ?_, rfl⟩
  · exact list_get?_isSome_of_lt c idx.index hidx
  · exact list_get?_isSome_of_lt c i hi

/-- Witness for C4 at the container `[10, 20, 30]`, typed index 2, raw
index 0. -/
theorem reverse_access_agrees_with_native_witness :
    (IndexTo.from_index 2 : IndexTo Nat (List Nat) Nat).index <
      ([10, 20, 30] : List Nat).length ∧
    0 < ([10, 20, 30] : List Nat).length ∧
    ((∀ (I2 Coll Out : Type) (d : IndexDict Coll I2 Out) (self : I2) (inside : Coll),
        IndexLike.get d self inside = d.indexOp inside self) ∧
     IndexLike.get (vecIndexDictTyped Nat) (IndexTo.from_index 2) [10, 20, 30] =
       vecIndexTyped [10, 20, 30] (IndexTo.from_index 2) ∧
     (∃ x, vecIndexTyped [10, 20, 30] (IndexTo.from_index 2) = some x) ∧
     IndexLike.get_mut_read (vecIndexMutDictTyped Nat) (IndexTo.from_index 2) [10, 20, 30] =
       vecIndexTyped [10, 20, 30] (IndexTo.from_index 2) ∧
     IndexLike.get_mut_write (vecIndexMutDictTyped Nat) (IndexTo.from_index 2) [10, 20, 30] 5 =
       vecWriteTyped [10, 20, 30] (IndexTo.from_index 2) 5 ∧
     IndexLike.get (vecIndexDictNat Nat) 0 [10, 20, 30] =
       vecNativeIndex [10, 20, 30] 0 ∧
     (∃ x, vecNativeIndex ([10, 20, 30] : List Nat) 0 = some x) ∧
     IndexLike.get_mut_write (vecIndexMutDictNat Nat) 0 [10, 20, 30] 5 =
       vecNativeWriteMut [10, 20, 30] 0 5) :=
  ⟨by decide, by decide,
   reverse_access_agrees_with_native Nat [10, 20, 30] (IndexTo.from_index 2) 0 5
     (by decide) (by decide)⟩

/-- C5: Writing a value through `typed_index_mut` (equivalently the
`IndexMut` impl) at an in-bounds typed index and then reading through
`typed_index` (equivalently the `Index` impl) at an equal typed index
observes the written value. -/
theorem write_then_read_observes_value (T : Type) (c : List T)
    (idx idx2 : IndexTo T (List T) Nat) (v : T)
    (h : idx.index < c.length) (heq : idx2.index = idx.index) :
    ∃ c2, typed_index_mut_write (vecIndexMutDictTyped T) c idx v = some c2 ∧
      vecWriteTyped c idx v = some c2 ∧
      typed_index (vecIndexDictTyped T) c2 idx2 = some v ∧
      vecIndexTyped c2 idx2 = some v := by
  have hw : vecNativeWriteMut c idx.index v = some (c.set idx.index v) := by
    simp [vecNativeWriteMut, h]
  have hr : (c.set idx.index v).get? idx2.index = some v := by
    rw [heq]
    exact list_get?_set_self_of_lt c idx.index v h
  exact ⟨c.set idx.index v, hw, hw, hr, hr⟩

/-- Witness for C5 at the container `[10, 20, 30]`, typed index 1, written
value 42. -/
theorem write_then_read_observes_value_witness :
    (IndexTo.from_index 1 : IndexTo Nat (List Nat) Nat).index <
      ([10, 20, 30] : List Nat).length ∧
    (IndexTo.from_index 1 : IndexTo Nat (List Nat) Nat).index =
      (IndexTo.from_index 1 : IndexTo Nat (List Nat) Nat).index ∧
    ∃ c2, typed_index_mut_write (vecIndexMutDictTyped Nat) [10, 20, 30]
        (IndexTo.from_index 1) 42 = some c2 ∧
      vecWriteTyped [10, 20, 30] (IndexTo.from_index 1) 42 = some c2 ∧
      typed_index (vecIndexDictTyped Nat) c2 (IndexTo.from_index 1) = some 42 ∧
      vecIndexTyped c2 (IndexTo.from_index 1) = some 42 :=
  ⟨by decide, rfl,
   write_then_read_observes_value Nat [10, 20, 30] (IndexTo.from_index 1)
     (IndexTo.from_index 1) 42 (by decide) rfl⟩

theorem fmtDebug_data_decomp (D I Idx : Type) (inName : String)
    (dbg : Idx → String) (a : IndexTo D I Idx) :
    (IndexTo.fmtDebug inName dbg a).data =
      "IndexTo<".data ++ (inName.data ++
        (">(".data ++ ((dbg a.index).data ++ ")".data))) := by
  simp [IndexTo.fmtDebug, string_data_append, List.append_assoc]

theorem fmtDisplay_data_decomp (D I Idx : Type) (inName : String)
    (dsp : Idx → String) (a : IndexTo D I Idx) :
    (IndexTo.fmtDisplay inName dsp a).data =
      "IndexTo<".data ++ (inName.data ++
        (">(".data ++ ((dsp a.index).data ++ ")".data))) := by
  simp [IndexTo.fmtDisplay, string_data_append, List.append_assoc]

/-- C7 counterexample: for the str binding's typed index `IndexTo<u8, str>`
(element marker `u8`, owner marker `str`, whose Rust type names are "u8"
and "str"), the Debug rendering of `from_index(0)` is "IndexTo<str>(0)",
which does not contain the element-type name "u8": the source formats only
the owner marker's type name, refuting the claim that the element-type
name is included alongside the raw value. -/
theorem debug_render_omits_element_name :
    IndexTo.fmtDebug "str" (fun n => toString n)
      (IndexTo.from_index 0 : IndexTo Nat String Nat) = "IndexTo<str>(0)" ∧
    strContainsSub (IndexTo.fmtDebug "str" (fun n => toString n)
      (IndexTo.from_index 0 : IndexTo Nat String Nat)) "u8" = false :=
  ⟨by decide, by decide⟩

/-- C7 (amended): the Debug and Display renderings consist of the
statically known owner-type name and the rendered raw value (the
element-type name is not rendered, see the counterexample); both renderings
contain the owner-type name and the rendered raw value as substrings; and
ordering and hashing delegate entirely to the raw index, observing no
marker information. -/
theorem render_includes_owner_name_and_raw (D I Idx S : Type)
    (inName : String) (dbg dsp : Idx → String)
    (cmpIdx : Idx → Idx → Ordering) (hashIdx : Idx → S → S)
    (a b : IndexTo D I Idx) (st : S) :
    IndexTo.fmtDebug inName dbg a =
      "IndexTo<" ++ inName ++ ">(" ++ dbg a.index ++ ")" ∧
    IndexTo.fmtDisplay inName dsp a =
      "IndexTo<" ++ inName ++ ">(" ++ dsp a.index ++ ")" ∧
    strContainsSub (IndexTo.fmtDebug inName dbg a) inName = true ∧
    strContainsSub (IndexTo.fmtDebug inName dbg a) (dbg a.index) = true ∧
    strContainsSub (IndexTo.fmtDisplay inName dsp a) inName = true ∧
    strContainsSub (IndexTo.fmtDisplay inName dsp a) (dsp a.index) = true ∧
    IndexTo.cmpWith cmpIdx a b = cmpIdx a.index b.index ∧
    IndexTo.hashWith hashIdx a st = hashIdx a.index st := by
  refine ⟨rfl, rfl, ?_, ?_, ?_, ?_, rfl, rfl⟩
  · show listContainsSub (IndexTo.fmtDebug inName dbg a).data inName.data = true
    rw [fmtDebug_data_decomp]
    exact listContainsSub_append_left _ _ _ (listContainsSub_here _ _)
  · show listContainsSub (IndexTo.fmtDebug inName dbg a).data (dbg a.index).data = true
    rw [fmtDebug_data_decomp]
    apply listContainsSub_append_left
    apply listContainsSub_append_left
    apply listContainsSub_append_left
    exact listContainsSub_here _ _
  · show listContainsSub (IndexTo.fmtDisplay inName dsp a).data inName.data = true
    rw [fmtDisplay_data_decomp]
    exact listContainsSub_append_left _ _ _ (listContainsSub_here _ _)
  · show listContainsSub (IndexTo.fmtDisplay inName dsp a).data (dsp a.index).data = true
    rw [fmtDisplay_data_decomp]
    apply listContainsSub_append_left
    apply listContainsSub_append_left
    apply listContainsSub_append_left
    exact listContainsSub_here _ _

/-- Identity encoder/decoder on `Nat` raw indices, used to witness the
serde round-trip claim. -/
def natIdExcept (n : Nat) : Except Unit Nat :=
  Except.ok n

/-- C8: With the serde feature enabled, a typed index serializes as exactly
its raw index value; deserialization wraps whatever raw value the raw
deserializer produces, performing no range validation; consequently, when
the raw serializer and deserializer round-trip, decoding the encoding of
`idx` yields a typed index with raw value `idx.index`. -/
theorem serde_roundtrip_raw_value (D I Idx E W : Type)
    (ser : Idx → Except E W) (de : W → Except E Idx)
    (hrt : ∀ i w, ser i = Except.ok w → de w = Except.ok i) :
    (∀ (a : IndexTo D I Idx), serializeTyped ser a = ser a.index) ∧
    (∀ (a : IndexTo D I Idx) (w : W),
       serializeTyped ser a = Except.ok w →
       deserializeTyped de w =
         Except.ok (IndexTo.from_index a.index : IndexTo D I Idx) ∧
       (IndexTo.from_index a.index : IndexTo D I Idx).index = a.index) ∧
    (∀ (w : W) (i : Idx), de w = Except.ok i →
       (deserializeTyped de w : Except E (IndexTo D I Idx)) =
         Except.ok (IndexTo.from_index i)) := by
  refine ⟨fun _ => rfl, ?_, ?_⟩
  · intro a w hw
    have hde : de w = Except.ok a.index := hrt a.index w hw
    exact ⟨by simp [deserializeTyped, hde], rfl⟩
  · intro w i hde
    simp [deserializeTyped, hde]

/-- Witness for C8 with the identity encoder/decoder on `Nat`. -/
theorem serde_roundtrip_raw_value_witness :
    (∀ i w, natIdExcept i = Except.ok w → natIdExcept w = Except.ok i) ∧
    ((∀ (a : IndexTo Unit Unit Nat),
        serializeTyped natIdExcept a = natIdExcept a.index) ∧
     (∀ (a : IndexTo Unit Unit Nat) (w : Nat),
        serializeTyped natIdExcept a = Except.ok w →
        deserializeTyped natIdExcept w =
          Except.ok (IndexTo.from_index a.index : IndexTo Unit Unit Nat) ∧
        (IndexTo.from_index a.index : IndexTo Unit Unit Nat).index = a.index) ∧
     (∀ (w i : Nat), natIdExcept w = Except.ok i →
        (deserializeTyped natIdExcept w : Except Unit (IndexTo Unit Unit Nat)) =
          Except.ok (IndexTo.from_index i))) :=
  ⟨fun i w h => h.symm,
   serde_roundtrip_raw_value Unit Unit Nat Unit Nat natIdExcept natIdExcept
     (fun i w h => h.symm)⟩
